import Mathlib

/-!
Verification development for the PubMed MCP server core
(rate limiter, TTL cache manager, search/fetch dispatch, XML parser).

Numeric quantities (`time.time()` values, token balances, rates) are
modelled over `ℚ`, i.e. with exact real-number semantics of the Python
arithmetic that the source performs on floats.
-/

/-- Token-bucket state of `utils.RateLimiter`: fields `rate`, `tokens`,
`last_update` as in `RateLimiter.__init__`. -/
structure RateLimiter where
  rate : ℚ
  tokens : ℚ
  last_update : ℚ
deriving DecidableEq

/-- `RateLimiter.__init__`: `self.tokens = rate`, `self.last_update = time.time()`
(construction time passed explicitly as `now`). -/
def RateLimiter.init (rate now : ℚ) : RateLimiter :=
  { rate := rate, tokens := rate, last_update := now }

/-- The refill step of `RateLimiter.acquire`:
`self.tokens = min(self.rate, self.tokens + elapsed * self.rate)` where
`elapsed = current_time - self.last_update`. -/
def refillTokens (rl : RateLimiter) (now : ℚ) : ℚ :=
  min rl.rate (rl.tokens + (now - rl.last_update) * rl.rate)

/-- `RateLimiter.acquire`, with `time.time()` at entry passed as `now`.
Returns the mutated limiter and the wall-clock time at which the call
completes (i.e. `now` on the immediate path, `now + wait_time` on the
`asyncio.sleep(wait_time)` path).  Note that the source sets
`self.last_update = current_time` before the branch, and on the sleep path
sets `self.tokens = 0` after the sleep without touching `last_update`. -/
def RateLimiter.acquire (rl : RateLimiter) (now : ℚ) : RateLimiter × ℚ :=
  let tokens := refillTokens rl now
  if 1 ≤ tokens then
    ({ rl with tokens := tokens - 1, last_update := now }, now)
  else
    ({ rl with tokens := 0, last_update := now }, now + (1 - tokens) / rl.rate)

/-- The spec invariant on the bucket state: `0 ≤ tokens ≤ rate`. -/
def RateLimiter.inv (rl : RateLimiter) : Prop :=
  0 ≤ rl.tokens ∧ rl.tokens ≤ rl.rate

/-- States reached after each call of a sequence of `acquire()` calls made at
the given wall-clock times. -/
def acquireTrace (rl : RateLimiter) : List ℚ → List RateLimiter
  | [] => []
  | t :: ts => (rl.acquire t).1 :: acquireTrace (rl.acquire t).1 ts

/-- Completion times of `n` back-to-back `acquire()` calls: the first call
starts at `now`, and each subsequent call starts the moment the previous
one completes (the densest schedule a sequential caller can produce). -/
def acquireCompletions (rl : RateLimiter) : ℕ → ℚ → List ℚ
  | 0, _ => []
  | n + 1, now =>
    let step := rl.acquire now
    step.2 :: acquireCompletions step.1 n step.2

/-- A Python value as passed in the keyword arguments of
`CacheManager.generate_key` by this code base: `None`, a string, an int,
a bool, a list of strings, or a string-keyed dict of ints. -/
inductive PyVal : Type where
  | pnone : PyVal
  | pstr : String → PyVal
  | pint : Int → PyVal
  | pbool : Bool → PyVal
  | plist : List String → PyVal
  | pdict : List (String × Int) → PyVal
deriving DecidableEq

/-- The apostrophe character, used by Python `repr` of strings. -/
def squote : String := String.singleton (Char.ofNat 39)

/-- Python `repr` of a string that contains no quote or escape characters
(the only kind this program ever places inside list-valued parameters). -/
def pyReprStr (s : String) : String := squote ++ s ++ squote

/-- Python `str` of a list given the renderings of its elements:
`"[" ++ ", ".join(...) ++ "]"`. -/
def pyListStr (parts : List String) : String :=
  "[" ++ String.intercalate ", " parts ++ "]"

/-- Python `str` of a pair `(key, intValue)` as produced for `dict.items()`
entries: `"('k', 1)"`. -/
def pyPairStr (p : String × Int) : String :=
  "(" ++ pyReprStr p.1 ++ ", " ++ toString p.2 ++ ")"

/-- CPython string `<`: lexicographic by Unicode code point, a proper prefix
comparing smaller.  Defined by structural recursion on the character lists so
that concrete comparisons compute inside the kernel. -/
def charsLt : List Char → List Char → Bool
  | [], [] => false
  | [], _ :: _ => true
  | _ :: _, [] => false
  | a :: as, b :: bs =>
    if a.toNat < b.toNat then true
    else if b.toNat < a.toNat then false
    else charsLt as bs

/-- Python `a <= b` on strings, as `not (b < a)`. -/
def pyStrLe (a b : String) : Prop := charsLt b.data a.data = false

instance : DecidableRel pyStrLe :=
  fun a b => inferInstanceAs (Decidable (charsLt b.data a.data = false))

/-- Comparison used by Python `sorted` on `dict.items()` / kwargs items when
all keys are distinct: tuples are compared lexicographically, so only the
string key is consulted. -/
def keyLe {β : Type} (a b : String × β) : Prop := pyStrLe a.1 b.1

instance {β : Type} : DecidableRel (@keyLe β) :=
  fun a b => inferInstanceAs (Decidable (pyStrLe a.1 b.1))

/-- Python `sorted` on an association list with distinct string keys
(modelled by a stable insertion sort by key, extensionally equal to
Python's stable sort under distinct keys). -/
def sortByKey {β : Type} (l : List (String × β)) : List (String × β) :=
  List.insertionSort keyLe l

/-- The value rendering `f"{k}={v}"` applies to a kwarg value `v` inside
`generate_key`: list and dict values are first sorted
(`sorted(v.items()) if isinstance(v, dict) else sorted(v)`) and then
stringified; all other values are stringified directly. -/
def renderValue : PyVal → String
  | .pnone => "None"
  | .pstr s => s
  | .pint n => toString n
  | .pbool b => if b then "True" else "False"
  | .plist xs =>
      pyListStr ((List.insertionSort pyStrLe xs).map pyReprStr)
  | .pdict xs => pyListStr ((sortByKey xs).map pyPairStr)

/-- Models `hashlib.md5(key_string.encode()).hexdigest()`: a deterministic
32-hex-character digest of the input.  The program never inspects the digest
contents — only that it is a fixed-width function of the string — so a simple
128-bit rolling hash stands in for MD5 here. -/
def md5hex (s : String) : String :=
  let h := s.data.foldl (fun a c => (a * 131 + c.toNat) % 2 ^ 128) 7
  let ds := Nat.toDigits 16 h
  String.mk (List.replicate (32 - ds.length) (Char.ofNat 48) ++ ds)

/-- The `f"{k}={v}"` part appended for one kwarg, or `none` for a kwarg whose
value is `None` (`if v is not None`). -/
def kwargPart (p : String × PyVal) : Option String :=
  if p.2 = PyVal.pnone then none else some (p.1 ++ "=" ++ renderValue p.2)

/-- `CacheManager.generate_key(*args, **kwargs)`: positional args stringified
in order, then each non-`None` kwarg rendered as `k=v` in sorted key order;
the parts are joined with `":"`; if the joined string is longer than 200
characters the source returns `f"{key_string}:{md5(key_string)}"`. -/
def generate_key (args : List String) (kwargs : List (String × PyVal)) : String :=
  let key_parts := args ++ (sortByKey kwargs).filterMap kwargPart
  let key_string := String.intercalate ":" key_parts
  if 200 < key_string.length then key_string ++ ":" ++ md5hex key_string
  else key_string

/-- Two kwarg entries that `generate_key` cannot distinguish: same key, same
`None`-ness, and same rendered value text. -/
def KwargEq (a b : String × PyVal) : Prop :=
  a.1 = b.1 ∧ (a.2 = PyVal.pnone ↔ b.2 = PyVal.pnone) ∧
    renderValue a.2 = renderValue b.2

/-- Code-point ranges of the characters CPython `str.isdigit()` accepts:
the Unicode `Numeric_Type=Decimal` ranges of the Basic Multilingual Plane
(ASCII `0-9`, Arabic-Indic, extended Arabic-Indic, NKo, the Indic scripts,
Thai, Lao, Tibetan, Myanmar, Khmer, Mongolian, and the other `Nd` blocks
through fullwidth digits) together with the `Numeric_Type=Digit`
characters (superscripts, subscripts, Ethiopic digits).  Supplementary-plane
digit blocks are omitted; no claim distinguishes them. -/
def pyDigitRanges : List (ℕ × ℕ) :=
  [(0x30, 0x39), (0xB2, 0xB3), (0xB9, 0xB9), (0x660, 0x669), (0x6F0, 0x6F9),
    (0x7C0, 0x7C9), (0x966, 0x96F), (0x9E6, 0x9EF), (0xA66, 0xA6F),
    (0xAE6, 0xAEF), (0xB66, 0xB6F), (0xBE6, 0xBEF), (0xC66, 0xC6F),
    (0xCE6, 0xCEF), (0xD66, 0xD6F), (0xDE6, 0xDEF), (0xE50, 0xE59),
    (0xED0, 0xED9), (0xF20, 0xF29), (0x1040, 0x1049), (0x1090, 0x1099),
    (0x1369, 0x1371), (0x17E0, 0x17E9), (0x1810, 0x1819), (0x1946, 0x194F),
    (0x19D0, 0x19D9), (0x1A80, 0x1A89), (0x1A90, 0x1A99), (0x1B50, 0x1B59),
    (0x1BB0, 0x1BB9), (0x1C40, 0x1C49), (0x1C50, 0x1C59), (0x2070, 0x2070),
    (0x2074, 0x2079), (0x2080, 0x2089), (0xA620, 0xA629), (0xA8D0, 0xA8D9),
    (0xA900, 0xA909), (0xA9D0, 0xA9D9), (0xA9F0, 0xA9F9), (0xAA50, 0xAA59),
    (0xABF0, 0xABF9), (0xFF10, 0xFF19)]

/-- A character CPython `str.isdigit()` counts as a digit: not only ASCII
`0-9` but any Unicode decimal/digit character. -/
def pyDigitChar (c : Char) : Bool :=
  pyDigitRanges.any fun r => r.1 ≤ c.toNat && c.toNat ≤ r.2

/-- Python `str.isdigit()`: nonempty and every character a Unicode
decimal/digit character. -/
def pyIsdigit (s : String) : Bool :=
  !s.data.isEmpty && s.data.all pyDigitChar

/-- `utils.validate_pmid`: `if not pmid or not pmid.isdigit(): return False;
return 7 <= len(pmid) <= 9`. -/
def validate_pmid (pmid : String) : Bool :=
  if pmid.data.isEmpty || !pyIsdigit pmid then false
  else decide (7 ≤ pmid.length) && decide (pmid.length ≤ 9)

/-- State of `utils.CacheManager` with values of type `α`: the backing
`cachetools.TTLCache` is modelled as an association list of
`(key, value, insertion time)` entries (newest first) plus the `maxsize` and
`ttl` bounds, together with the `stats` counters `hits`/`misses`/`sets`. -/
structure CacheState (α : Type) where
  entries : List (String × α × ℚ)
  maxsize : ℕ
  ttl : ℚ
  hits : ℕ
  misses : ℕ
  sets : ℕ
deriving DecidableEq

/-- `CacheManager.__init__(max_size, ttl)`: empty store, zeroed counters. -/
def CacheState.fresh (α : Type) (maxsize : ℕ) (ttl : ℚ) : CacheState α :=
  { entries := [], maxsize := maxsize, ttl := ttl, hits := 0, misses := 0,
    sets := 0 }

/-- `TTLCache.get(key)`: the stored value if an entry for `key` exists and has
not expired (`now - inserted < ttl`), otherwise `None`. -/
def lookupTTL {α : Type} (entries : List (String × α × ℚ)) (key : String)
    (now ttl : ℚ) : Option α :=
  match entries.find? (fun e => e.1 == key) with
  | some e => if now - e.2.2 < ttl then some e.2.1 else none
  | none => none

/-- `CacheManager.get(key)`: on a backend fault (the `except` branch) the
method logs and returns `None` without touching the counters; otherwise a
non-`None` lookup increments `hits` and returns the value, and a `None`
lookup increments `misses` and returns `None`. -/
def cacheGet {α : Type} (c : CacheState α) (key : String) (now : ℚ)
    (fault : Bool) : Option α × CacheState α :=
  if fault then (none, c)
  else
    match lookupTTL c.entries key now c.ttl with
    | some v => (some v, { c with hits := c.hits + 1 })
    | none => (none, { c with misses := c.misses + 1 })

/-- `CacheManager.set(key, value)`: on a backend fault the method logs and
swallows without touching the counters; otherwise `self.cache[key] = value`
(overwrite, newest first, bounded by `maxsize`) and `sets` is incremented. -/
def cacheSet {α : Type} (c : CacheState α) (key : String) (v : α) (now : ℚ)
    (fault : Bool) : CacheState α :=
  if fault then c
  else
    { c with
      entries :=
        ((key, v, now) :: c.entries.filter fun e => !(e.1 == key)).take c.maxsize,
      sets := c.sets + 1 }

/-- `CacheManager.clear()`: drops all entries, keeps the counters. -/
def cacheClear {α : Type} (c : CacheState α) : CacheState α :=
  { c with entries := [] }

/-- One call against a `CacheManager`: `get` and `set` carry the wall-clock
time of the call and whether the backing store faults on it; `clear` and
`get_stats` take no arguments (`get_stats` reads the counters and mutates
nothing). -/
inductive CacheOp (α : Type) where
  | get (key : String) (now : ℚ) (fault : Bool)
  | set (key : String) (v : α) (now : ℚ) (fault : Bool)
  | clear
  | stats

/-- Apply one `CacheManager` call to the state. -/
def applyCacheOp {α : Type} (c : CacheState α) : CacheOp α → CacheState α
  | .get key now fault => (cacheGet c key now fault).2
  | .set key v now fault => cacheSet c key v now fault
  | .clear => cacheClear c
  | .stats => c

/-- Run a sequence of `CacheManager` calls. -/
def runCacheOps {α : Type} (c : CacheState α) : List (CacheOp α) → CacheState α
  | [] => c
  | op :: ops => runCacheOps (applyCacheOp c op) ops

/-- Number of `get` calls in a sequence whose backend access does not fault. -/
def countOkGets {α : Type} : List (CacheOp α) → ℕ
  | [] => 0
  | .get _ _ false :: ops => countOkGets ops + 1
  | _ :: ops => countOkGets ops

/-- Number of `set` calls in a sequence whose backend access does not fault. -/
def countOkSets {α : Type} : List (CacheOp α) → ℕ
  | [] => 0
  | .set _ _ _ false :: ops => countOkSets ops + 1
  | _ :: ops => countOkSets ops

/-- Number of `get` calls in a sequence (faulting or not). -/
def countGets {α : Type} : List (CacheOp α) → ℕ
  | [] => 0
  | .get _ _ _ :: ops => countGets ops + 1
  | _ :: ops => countGets ops

/-- Number of `set` calls in a sequence (faulting or not). -/
def countSets {α : Type} : List (CacheOp α) → ℕ
  | [] => 0
  | .set _ _ _ _ :: ops => countSets ops + 1
  | _ :: ops => countSets ops

/-- `models.Author` (pydantic): `last_name` is the only required field. -/
structure Author where
  last_name : String
  first_name : Option String
  initials : Option String
  affiliation : Option String
  orcid : Option String
deriving DecidableEq

/-- `models.Journal` (pydantic): `title` is the only required field. -/
structure Journal where
  title : String
  iso_abbreviation : Option String
  issn : Option String
  volume : Option String
  issue : Option String
  pub_date : Option String
  pages : Option String
deriving DecidableEq

/-- `models.MeSHTerm` (pydantic): `descriptor_name` is required. -/
structure MeSHTerm where
  descriptor_name : String
  qualifier_name : Option String
  major_topic : Bool
  ui : Option String
deriving DecidableEq

/-- `models.Article` (pydantic): `pmid`, `title` and `journal` are required;
everything else is optional or defaulted. -/
structure Article where
  pmid : String
  title : String
  abstract : Option String
  authors : List Author
  journal : Journal
  pub_date : Option String
  doi : Option String
  pmc_id : Option String
  article_types : List String
  mesh_terms : List MeSHTerm
  keywords : List String
  languages : List String
  citation_count : Option Int
  full_text_urls : List String
  pdf_urls : List String
  grant_info : List (List (String × String))
  conflict_of_interest : Option String
deriving DecidableEq

/-- An `xml.etree.ElementTree.Element`: tag, attributes, `.text` (the text
directly inside the element, `None` when absent), and child elements.  The
parsing of raw XML text into this tree is done by the Python standard
library; payloads are therefore modelled as parsed trees (or, at top level,
as `Option` of one: `none` models an `ET.ParseError`). -/
inductive XElem : Type where
  | mk (tag : String) (attrs : List (String × String)) (text : Option String)
      (children : List XElem)

/-- The element's tag. -/
def XElem.tag : XElem → String
  | .mk t _ _ _ => t

/-- The element's attribute list. -/
def XElem.attrs : XElem → List (String × String)
  | .mk _ a _ _ => a

/-- The element's `.text`. -/
def XElem.text : XElem → Option String
  | .mk _ _ t _ => t

/-- The element's direct children. -/
def XElem.children : XElem → List XElem
  | .mk _ _ _ cs => cs

mutual
/-- All proper descendants of an element in document (pre-)order, as
enumerated by an ElementTree `.//` path. -/
def XElem.descendants : XElem → List XElem
  | .mk _ _ _ cs => descendantsL cs
/-- Descendants-or-self of each element of a list, in document order. -/
def descendantsL : List XElem → List XElem
  | [] => []
  | c :: cs => c :: (XElem.descendants c ++ descendantsL cs)
end

/-- `elem.findall(".//tag")`: all descendants with the given tag, in document
order. -/
def findall (e : XElem) (tag : String) : List XElem :=
  e.descendants.filter fun c => c.tag == tag

/-- `elem.find(".//tag")`: the first descendant with the given tag, or
`None`. -/
def findTag (e : XElem) (tag : String) : Option XElem :=
  (findall e tag).head?

/-- `elem.get(name)`: attribute lookup, `None` when absent. -/
def XElem.attr (e : XElem) (name : String) : Option String :=
  (e.attrs.find? fun p => p.1 == name).map Prod.snd

/-- `elem.get(name, default)`. -/
def XElem.attrD (e : XElem) (name dflt : String) : String :=
  (e.attr name).getD dflt

/-- `elem.find(".//tag[@name='val']")`: first descendant with the tag whose
attribute `name` equals `val`. -/
def findTagWithAttr (e : XElem) (tag aname aval : String) : Option XElem :=
  (e.descendants.filter fun c =>
    c.tag == tag && c.attr aname == some aval).head?

/-- `elem.find(".//t1/t2")`: first `t2` child of any `t1` descendant, in
document order. -/
def findPathChild (e : XElem) (t1 t2 : String) : Option XElem :=
  ((findall e t1).map fun a => a.children.filter fun c => c.tag == t2).flatten.head?

/-- Python truthiness of a string: nonempty. -/
def pyTruthyStr (s : String) : Bool := !s.data.isEmpty

/-- One `Author` node inside `_parse_single_article`: an author without a
`LastName` element is skipped (`some none`); a `LastName` element whose text
is `None` makes the pydantic `Author(...)` constructor raise, aborting the
whole article (`none`). -/
def parseAuthor (ae : XElem) : Option (Option Author) :=
  match findTag ae "LastName" with
  | none => some none
  | some ln =>
    match ln.text with
    | none => none
    | some lnt =>
      some (some
        { last_name := lnt,
          first_name := (findTag ae "ForeName").bind XElem.text,
          initials := (findTag ae "Initials").bind XElem.text,
          affiliation :=
            (findPathChild ae "AffiliationInfo" "Affiliation").bind XElem.text,
          orcid := none })

/-- The author loop of `_parse_single_article`. -/
def parseAuthors (lst : List XElem) : Option (List Author) :=
  (lst.mapM parseAuthor).map fun l => l.filterMap id

/-- One `MeshHeading` node: a heading without a `DescriptorName` is skipped;
a `DescriptorName` whose text is `None` makes `MeSHTerm(...)` raise,
aborting the whole article. -/
def parseMesh (mh : XElem) : Option (Option MeSHTerm) :=
  match findTag mh "DescriptorName" with
  | none => some none
  | some de =>
    match de.text with
    | none => none
    | some dn =>
      some (some
        { descriptor_name := dn, qualifier_name := none,
          major_topic := de.attrD "MajorTopicYN" "N" == "Y",
          ui := de.attr "UI" })

/-- The MeSH loop of `_parse_single_article`. -/
def parseMeshList (lst : List XElem) : Option (List MeSHTerm) :=
  (lst.mapM parseMesh).map fun l => l.filterMap id

/-- One `Year`/`Month`/`Day` component of `PubDate`: an absent element
contributes no part; a present element whose text is `None` puts `None` into
`date_parts`, making `"/".join(date_parts)` raise and aborting the article. -/
def datePart (pd : XElem) (tag : String) : Option (Option String) :=
  match findTag pd tag with
  | none => some none
  | some e =>
    match e.text with
    | none => none
    | some s => some (some s)

/-- The journal section of `_parse_single_article`: returns the `Journal`
record and the `pub_date` (also stored on the article).  A `Title` element
whose text is `None` makes `Journal(title=None)` raise. -/
def parseJournal (inner : XElem) : Option (Journal × Option String) := do
  match findTag inner "Journal" with
  | none =>
    pure ({ title := "Unknown Journal", iso_abbreviation := none, issn := none,
            volume := none, issue := none, pub_date := none, pages := none },
      none)
  | some je => do
    let jt ← match findTag je "Title" with
      | none => pure "Unknown Journal"
      | some te => te.text
    let iso := (findTag je "ISOAbbreviation").bind XElem.text
    let issn := (findTag je "ISSN").bind XElem.text
    let vip ← match findTag je "JournalIssue" with
      | none => pure (none, none, (none : Option String))
      | some ie => do
        let vol := (findTag ie "Volume").bind XElem.text
        let iss := (findTag ie "Issue").bind XElem.text
        let pd ← match findTag ie "PubDate" with
          | none => pure none
          | some pde => do
            let y ← datePart pde "Year"
            let m ← datePart pde "Month"
            let d ← datePart pde "Day"
            let parts := [y, m, d].filterMap id
            pure (if parts.isEmpty then none
              else some (String.intercalate "/" parts))
        pure (vol, iss, pd)
    pure ({ title := jt, iso_abbreviation := iso, issn := issn,
            volume := vip.1, issue := vip.2.1, pub_date := vip.2.2,
            pages := none }, vip.2.2)

/-- The abstract section: each `AbstractText` contributes
`f"{label}: {text}"` when it has a nonempty `Label` attribute and its bare
text otherwise (text defaulting to `""`); the parts are joined with a space,
and no part at all yields `None`. -/
def abstractOf (inner : XElem) : Option String :=
  let parts := (findall inner "AbstractText").map fun ae =>
    let label := ae.attrD "Label" ""
    let txt := ae.text.getD ""
    if pyTruthyStr label then label ++ ": " ++ txt else txt
  if parts.isEmpty then none else some (String.intercalate " " parts)

/-- The `PublicationType`/`Keyword`/`Language` loops: gated on the presence
of the list element, collecting each item with truthy (nonempty) text. -/
def textItems (lst : Option XElem) (tag : String) : List String :=
  match lst with
  | none => []
  | some l =>
    (findall l tag).filterMap fun e =>
      match e.text with
      | some s => if pyTruthyStr s then some s else none
      | none => none

/-- `PubMedClient._parse_single_article`: returns `none` when the node has no
`PMID` or no `Article` descendant (the explicit `return None` branches), and
also when any of the pydantic constructions inside the `try` block raises
(missing required text), mirroring the catch-all `except`. -/
def parse_single_article (article_elem : XElem) : Option Article := do
  let pmidE ← findTag article_elem "PMID"
  let pmid ← pmidE.text
  let inner ← findTag article_elem "Article"
  let title ← match findTag inner "ArticleTitle" with
    | none => pure "No title"
    | some te => te.text
  let abst := abstractOf inner
  let authors ← match findTag inner "AuthorList" with
    | none => pure []
    | some al => parseAuthors (findall al "Author")
  let jp ← parseJournal inner
  let doi := (findTagWithAttr article_elem "ELocationID" "EIdType" "doi").bind
    XElem.text
  let pmc_id := (findTagWithAttr article_elem "ELocationID" "EIdType" "pmc").bind
    XElem.text
  let article_types :=
    textItems (findTag article_elem "PublicationTypeList") "PublicationType"
  let mesh_terms ← match findTag article_elem "MeshHeadingList" with
    | none => pure []
    | some ml => parseMeshList (findall ml "MeshHeading")
  let keywords := textItems (findTag article_elem "KeywordList") "Keyword"
  let languages := textItems (findTag article_elem "LanguageList") "Language"
  pure { pmid := pmid, title := title, abstract := abst, authors := authors,
         journal := jp.1, pub_date := jp.2, doi := doi, pmc_id := pmc_id,
         article_types := article_types, mesh_terms := mesh_terms,
         keywords := keywords, languages := languages, citation_count := none,
         full_text_urls := [], pdf_urls := [], grant_info := [],
         conflict_of_interest := none }

/-- `root.findall(".//PubmedArticle")`. -/
def pubmedArticleNodes (root : XElem) : List XElem :=
  root.descendants.filter fun c => c.tag == "PubmedArticle"

/-- `PubMedClient._parse_pubmed_xml`: `none` input models a payload that
`ET.fromstring` rejects (the `except ET.ParseError` branch returns the empty
accumulator); otherwise each `PubmedArticle` node is parsed inside its own
`try`, appending only successfully parsed articles. -/
def parse_pubmed_xml (doc : Option XElem) : List Article :=
  match doc with
  | none => []
  | some root => (pubmedArticleNodes root).filterMap parse_single_article

/-- Test fixture: a well-formed `PubmedArticle` payload node. -/
def wOkArticle (pmid : String) : XElem :=
  XElem.mk "PubmedArticle" [] none
    [XElem.mk "MedlineCitation" [] none
      [XElem.mk "PMID" [] (some pmid) [],
        XElem.mk "Article" [] none
          [XElem.mk "ArticleTitle" [] (some "A title") []]]]

/-- Test fixture: a malformed `PubmedArticle` node (no `PMID` descendant). -/
def wBadArticle : XElem :=
  XElem.mk "PubmedArticle" [] none
    [XElem.mk "MedlineCitation" [] none [XElem.mk "Article" [] none []]]

/-- Test fixture: a payload with two well-formed articles around one
malformed article. -/
def wRoot : XElem :=
  XElem.mk "PubmedArticleSet" [] none
    [wOkArticle "12345678", wBadArticle, wOkArticle "23456789"]

/-- `models.SearchResult` (pydantic). -/
structure SearchResult where
  query : String
  total_results : ℕ
  returned_results : ℕ
  articles : List Article
  search_time : ℚ
  suggestions : List String
deriving DecidableEq

/-- One outbound HTTP GET issued through `PubMedClient._make_request`:
the E-utilities endpoint, the `term` parameter (for `esearch`), and the
identifier list joined into the `id` parameter (for `efetch`). -/
structure HttpReq where
  endpoint : String
  termParam : String
  ids : List String
deriving DecidableEq

/-- Python truthiness of an optional string (`None` and `""` are falsy). -/
def optTruthyS (o : Option String) : Bool :=
  match o with
  | none => false
  | some s => pyTruthyStr s

/-- Python truthiness of an optional list (`None` and `[]` are falsy). -/
def optTruthyL (o : Option (List String)) : Bool :=
  match o with
  | none => false
  | some l => !l.isEmpty

/-- Python truthiness of an optional bool. -/
def optTruthyB (o : Option Bool) : Bool := o.getD false

/-- `utils.build_search_query`: assembles the PubMed term string from the
base query and the truthy filters, joined with `" AND "`. -/
def build_search_query (base_query : String)
    (authors journals mesh_terms article_types : Option (List String))
    (date_from date_to : Option String) (language : Option String)
    (has_abstract has_full_text humans_only : Option Bool) : String :=
  let query_parts := ["(" ++ base_query ++ ")"]
  let query_parts := if optTruthyL authors then
      query_parts ++ ["(" ++ String.intercalate " OR "
        ((authors.getD []).map fun a => "\"" ++ a ++ "\"[Author]") ++ ")"]
    else query_parts
  let query_parts := if optTruthyL journals then
      query_parts ++ ["(" ++ String.intercalate " OR "
        ((journals.getD []).map fun j => "\"" ++ j ++ "\"[Journal]") ++ ")"]
    else query_parts
  let query_parts := if optTruthyL mesh_terms then
      query_parts ++ ["(" ++ String.intercalate " OR "
        ((mesh_terms.getD []).map fun t => "\"" ++ t ++ "\"[MeSH Terms]") ++ ")"]
    else query_parts
  let query_parts := if optTruthyL article_types then
      query_parts ++ ["(" ++ String.intercalate " OR "
        ((article_types.getD []).map
          fun t => "\"" ++ t ++ "\"[Publication Type]") ++ ")"]
    else query_parts
  let query_parts := if optTruthyS date_from || optTruthyS date_to then
      let date_query :=
        if optTruthyS date_from && optTruthyS date_to then
          "(\"" ++ date_from.getD "" ++ "\"[Date - Publication] : \"" ++
            date_to.getD "" ++ "\"[Date - Publication])"
        else if optTruthyS date_from then
          "\"" ++ date_from.getD "" ++
            "\"[Date - Publication] : \"3000\"[Date - Publication]"
        else
          "\"1800\"[Date - Publication] : \"" ++ date_to.getD "" ++
            "\"[Date - Publication]"
      if pyTruthyStr date_query then query_parts ++ [date_query] else query_parts
    else query_parts
  let query_parts := if optTruthyS language then
      query_parts ++ ["\"" ++ language.getD "" ++ "\"[Language]"]
    else query_parts
  let query_parts := if optTruthyB has_abstract then
      query_parts ++ ["hasabstract[text word]"] else query_parts
  let query_parts := if optTruthyB has_full_text then
      query_parts ++ ["free full text[sb]"] else query_parts
  let query_parts := if optTruthyB humans_only then
      query_parts ++ ["humans[MeSH Terms]"] else query_parts
  String.intercalate " AND " query_parts

/-- The upstream E-utilities responses for one search lifecycle: the JSON
`esearchresult` (`count` and `idlist`) and the `efetch` XML payload
(`none` models a payload `ET.fromstring` rejects). -/
structure Upstream where
  count : ℕ
  idlist : List String
  fetchDoc : Option XElem

/-- The `datetime.now()`-derived date strings used by the `date_range`
shortcut in `search_articles` (values of `strftime("%Y/%m/%d")`). -/
structure Clock where
  today : String
  yearAgo : String
  fiveYearsAgo : String
  tenYearsAgo : String
deriving DecidableEq

/-- The keyword arguments of `PubMedClient.search_articles` (`sort_order`
and `date_range` carry the enum `.value` strings). -/
structure SearchParams where
  query : String
  max_results : ℕ
  sort_order : String
  date_from : Option String
  date_to : Option String
  date_range : Option String
  article_types : Option (List String)
  authors : Option (List String)
  journals : Option (List String)
  mesh_terms : Option (List String)
  language : Option String
  has_abstract : Option Bool
  has_full_text : Option Bool
  humans_only : Option Bool
deriving DecidableEq

/-- The kwargs passed to `cache.generate_key("search", ...)` in
`search_articles`, in source order (sorted by `generate_key` anyway). -/
def searchKwargs (p : SearchParams) : List (String × PyVal) :=
  [("query", PyVal.pstr p.query),
    ("max_results", PyVal.pint p.max_results),
    ("sort_order", PyVal.pstr p.sort_order),
    ("date_from", (p.date_from.map PyVal.pstr).getD PyVal.pnone),
    ("date_to", (p.date_to.map PyVal.pstr).getD PyVal.pnone),
    ("date_range", (p.date_range.map PyVal.pstr).getD PyVal.pnone),
    ("article_types", (p.article_types.map PyVal.plist).getD PyVal.pnone),
    ("authors", (p.authors.map PyVal.plist).getD PyVal.pnone),
    ("journals", (p.journals.map PyVal.plist).getD PyVal.pnone),
    ("mesh_terms", (p.mesh_terms.map PyVal.plist).getD PyVal.pnone),
    ("language", (p.language.map PyVal.pstr).getD PyVal.pnone),
    ("has_abstract", (p.has_abstract.map PyVal.pbool).getD PyVal.pnone),
    ("has_full_text", (p.has_full_text.map PyVal.pbool).getD PyVal.pnone),
    ("humans_only", (p.humans_only.map PyVal.pbool).getD PyVal.pnone)]

/-- The cache key `search_articles` computes when a cache is supplied. -/
def searchKey (p : SearchParams) : String :=
  generate_key ["search"] (searchKwargs p)

/-- `PubMedClient._fetch_article_details`: empty input returns `[]` without
any request; otherwise one rate-limited `efetch.fcgi` request whose `id`
parameter carries exactly the given PMIDs, parsed by `_parse_pubmed_xml`.
Both `time.time()` readings of the surrounding lifecycle are modelled by the
single instant `now`. -/
def fetch_article_details (limiter : RateLimiter) (up : Upstream) (now : ℚ)
    (pmids : List String) : List Article × RateLimiter × List HttpReq :=
  if pmids.isEmpty then ([], limiter, [])
  else
    (parse_pubmed_xml up.fetchDoc, (limiter.acquire now).1,
      [{ endpoint := "efetch.fcgi", termParam := "", ids := pmids }])

/-- The dict `search_articles` stores in the cache: the structured result
together with the representation of its `"articles"` entry.  `cache.set`
writes it with `serialized = true` (`model_dump` dicts, "store as dicts for
serialization"); the hit path's in-place rewrite
`cached_result["articles"] = cached_articles` leaves `Article` objects in
the same stored dict, modelled by `serialized = false`. -/
structure CachedSearch where
  base : SearchResult
  serialized : Bool
deriving DecidableEq

/-- The in-place mutation of the stored cache dict performed by the hit path
of `search_articles`: the entry under `key` keeps its insertion time (the
`TTLCache` bookkeeping is untouched) but now holds the rewritten dict. -/
def searchEntryMutate (c : CacheState CachedSearch) (key : String)
    (v : CachedSearch) : CacheState CachedSearch :=
  { c with entries := c.entries.map fun e =>
      if e.1 == key then (e.1, v, e.2.2) else e }

/-- The observable outcome of one `search_articles` call: the returned
`SearchResult` (`none` models an uncaught exception escaping the call —
the `TypeError` raised by `Article(**article_data)` when the cached entry
already holds `Article` objects), the rate-limiter state afterwards, the
outbound HTTP requests issued, and the cache state afterwards. -/
structure SearchOutcome where
  result : Option SearchResult
  limiter : RateLimiter
  requests : List HttpReq
  cache : Option (CacheState CachedSearch)

/-- The cache-miss (or no-cache) path of `search_articles`: date-range
shortcut, `build_search_query`, one rate-limited `esearch.fcgi` call, a
follow-up `_fetch_article_details` when the identifier list is nonempty,
result assembly, and a best-effort `cache.set` before returning.
`search_time` is wall-clock elapsed time; it is pinned to `0` here since no
claim concerns it. -/
def search_articles_miss (limiter : RateLimiter)
    (cache : Option (CacheState CachedSearch)) (key : String) (up : Upstream)
    (clock : Clock) (now : ℚ) (p : SearchParams) : SearchOutcome :=
  let dfdt : Option String × Option String :=
    if p.date_range.isSome && !(optTruthyS p.date_from || optTruthyS p.date_to)
    then
      (match p.date_range with
        | some "1y" => some clock.yearAgo
        | some "5y" => some clock.fiveYearsAgo
        | some "10y" => some clock.tenYearsAgo
        | _ => p.date_from,
        some clock.today)
    else (p.date_from, p.date_to)
  let search_query := build_search_query p.query p.authors p.journals
    p.mesh_terms p.article_types dfdt.1 dfdt.2 p.language p.has_abstract
    p.has_full_text p.humans_only
  let req1 : HttpReq :=
    { endpoint := "esearch.fcgi", termParam := search_query, ids := [] }
  let limiter1 := (limiter.acquire now).1
  let pmids := up.idlist
  let far : List Article × RateLimiter × List HttpReq :=
    if pmids.isEmpty then ([], limiter1, [])
    else fetch_article_details limiter1 up now pmids
  let result : SearchResult :=
    { query := p.query, total_results := up.count,
      returned_results := far.1.length, articles := far.1, search_time := 0,
      suggestions := [] }
  let cache2 := match cache with
    | some c =>
      some (cacheSet c key { base := result, serialized := true } now false)
    | none => none
  { result := some result, limiter := far.2.1, requests := req1 :: far.2.2,
      cache := cache2 }

/-- `PubMedClient.search_articles`: when a cache is supplied, first compute
the key and consult the cache.  On a hit the source rebuilds
`Article(**article_data)` from `cached_result["articles"]`: when the stored
dict still holds `model_dump` dicts (or the list is empty) this succeeds —
the round trip is the identity on the model — and the source then rewrites
the *stored* dict in place (`cached_result["articles"] = cached_articles`),
leaving `Article` objects in the cache entry; but when a previous hit
already left `Article` objects there and the list is nonempty,
`Article(**article_data)` receives a non-mapping and raises `TypeError`
before the rewrite (modelled by `result := none` with the entry unchanged —
`cache.get` has already counted the hit).  On a miss, fall through to the
miss path.  The source's `if cached_result:` truthiness test is modelled as
presence, since every value the program stores is a non-empty dict. -/
def search_articles (limiter : RateLimiter)
    (cache : Option (CacheState CachedSearch)) (up : Upstream) (clock : Clock)
    (now : ℚ) (p : SearchParams) : SearchOutcome :=
  match cache with
  | some c =>
    let g := cacheGet c (searchKey p) now false
    match g.1 with
    | some v =>
      if !v.serialized && !v.base.articles.isEmpty then
        { result := none, limiter := limiter, requests := [],
          cache := some g.2 }
      else
        { result := some v.base, limiter := limiter, requests := [],
          cache := some (searchEntryMutate g.2 (searchKey p)
            { v with serialized := false }) }
    | none => search_articles_miss limiter (some g.2) (searchKey p) up clock now p
  | none => search_articles_miss limiter none "" up clock now p

/-- The observable outcome of one `get_article_details` call. -/
structure DetailsOutcome where
  articles : List Article
  limiter : RateLimiter
  requests : List HttpReq
  cache : Option (CacheState (List Article))
deriving DecidableEq

/-- The cache key `get_article_details` computes from the valid subset. -/
def detailsKey (valid_pmids : List String) (ia ic : Bool) : String :=
  generate_key ["article_details"]
    [("pmids", PyVal.plist valid_pmids),
      ("include_abstracts", PyVal.pbool ia),
      ("include_citations", PyVal.pbool ic)]

/-- `PubMedClient.get_article_details`: filter the supplied PMIDs through
`validate_pmid` (invalid ones are only logged); an all-invalid input returns
`[]` immediately with no request; otherwise consult the cache (when
supplied) and on a miss fetch the valid subset. -/
def get_article_details (limiter : RateLimiter)
    (cache : Option (CacheState (List Article))) (up : Upstream) (now : ℚ)
    (pmids : List String) (include_abstracts include_citations : Bool) :
    DetailsOutcome :=
  let valid_pmids := pmids.filter validate_pmid
  if valid_pmids.isEmpty then
    { articles := [], limiter := limiter, requests := [], cache := cache }
  else
    match cache with
    | some c =>
      let key := detailsKey valid_pmids include_abstracts include_citations
      let g := cacheGet c key now false
      match g.1 with
      | some cached =>
        { articles := cached, limiter := limiter, requests := [],
          cache := some g.2 }
      | none =>
        let far := fetch_article_details limiter up now valid_pmids
        { articles := far.1, limiter := far.2.1, requests := far.2.2,
          cache := some (cacheSet g.2 key far.1 now false) }
    | none =>
      let far := fetch_article_details limiter up now valid_pmids
      { articles := far.1, limiter := far.2.1, requests := far.2.2,
        cache := none }

/-- Test fixture: a `search_articles` parameter set. -/
def wSearchParams : SearchParams :=
  { query := "cancer", max_results := 10, sort_order := "relevance",
    date_from := none, date_to := none, date_range := none,
    article_types := none, authors := none, journals := none,
    mesh_terms := none, language := none, has_abstract := none,
    has_full_text := none, humans_only := none }

/-- Test fixture: one article record. -/
def wArticle : Article :=
  { pmid := "12345678", title := "A title", abstract := none, authors := [],
    journal :=
      { title := "Unknown Journal", iso_abbreviation := none, issn := none,
        volume := none, issue := none, pub_date := none, pages := none },
    pub_date := none, doi := none, pmc_id := none, article_types := [],
    mesh_terms := [], keywords := [], languages := [], citation_count := none,
    full_text_urls := [], pdf_urls := [], grant_info := [],
    conflict_of_interest := none }

/-- Test fixture: a cached structured search result with one article. -/
def wSearchResultNE : SearchResult :=
  { query := "cancer", total_results := 1, returned_results := 1,
    articles := [wArticle], search_time := 0, suggestions := [] }

/-- Test fixture: a cache as left by `cache.set` — one entry in serialized
(dict) form under the key of `wSearchParams`, inserted at time 0 with
`ttl = 300`. -/
def wPoisonableCache : CacheState CachedSearch :=
  { entries := [(searchKey wSearchParams,
      { base := wSearchResultNE, serialized := true }, 0)],
    maxsize := 1000, ttl := 300, hits := 0, misses := 0, sets := 0 }

/-- Test fixture: the same cache after one hit: `hits = 1` and the stored
dict now holds `Article` objects (`serialized = false`). -/
def wPoisonedCache : CacheState CachedSearch :=
  { entries := [(searchKey wSearchParams,
      { base := wSearchResultNE, serialized := false }, 0)],
    maxsize := 1000, ttl := 300, hits := 1, misses := 0, sets := 0 }

/-- Test fixture: an upstream with no results. -/
def wUpstream : Upstream := { count := 0, idlist := [], fetchDoc := none }

/-- Test fixture: the `datetime.now()`-derived date strings. -/
def wClock : Clock :=
  { today := "2026/10/12", yearAgo := "2025/10/12",
    fiveYearsAgo := "2021/10/13", tenYearsAgo := "2016/10/14" }

theorem refill_bounds (rl : RateLimiter) (now : ℚ) (hr : 0 < rl.rate)
    (h0 : 0 ≤ rl.tokens) (ht : rl.last_update ≤ now) :
    0 ≤ refillTokens rl now ∧ refillTokens rl now ≤ rl.rate := by
  unfold refillTokens
  refine ⟨le_min hr.le ?_, min_le_left _ _⟩
  have : 0 ≤ (now - rl.last_update) * rl.rate :=
    mul_nonneg (by linarith) hr.le
  linarith

theorem acquire_preserves_inv (rl : RateLimiter) (now : ℚ) (hr : 0 < rl.rate)
    (h : rl.inv) (ht : rl.last_update ≤ now) :
    ((rl.acquire now).1).inv ∧ ((rl.acquire now).1).rate = rl.rate ∧
      ((rl.acquire now).1).last_update = now := by
  obtain ⟨hlo, hhi⟩ := refill_bounds rl now hr h.1 ht
  by_cases hc : 1 ≤ refillTokens rl now
  · have hstep : rl.acquire now =
        ({ rl with tokens := refillTokens rl now - 1, last_update := now }, now) := by
      unfold RateLimiter.acquire
      rw [if_pos hc]
    rw [hstep]
    refine ⟨⟨?_, ?_⟩, rfl, rfl⟩
    · show (0 : ℚ) ≤ refillTokens rl now - 1
      linarith
    · show refillTokens rl now - 1 ≤ rl.rate
      linarith
  · have hstep : rl.acquire now =
        ({ rl with tokens := 0, last_update := now },
          now + (1 - refillTokens rl now) / rl.rate) := by
      unfold RateLimiter.acquire
      rw [if_neg hc]
    rw [hstep]
    exact ⟨⟨le_refl 0, hr.le⟩, rfl, rfl⟩

theorem acquireTrace_inv (ts : List ℚ) :
    ∀ rl : RateLimiter, 0 < rl.rate → rl.inv →
      List.Chain (fun a b => a ≤ b) rl.last_update ts →
      ∀ s ∈ acquireTrace rl ts, s.inv := by
  induction ts with
  | nil => intro rl _ _ _ s hs; simp [acquireTrace] at hs
  | cons t ts ih =>
    intro rl hr hinv hch s hs
    rcases hch with _ | ⟨hle, hch⟩
    obtain ⟨hinv1, hrate1, hupd1⟩ := acquire_preserves_inv rl t hr hinv hle
    simp only [acquireTrace, List.mem_cons] at hs
    rcases hs with rfl | hs
    · exact hinv1
    · exact ih (rl.acquire t).1 (hrate1 ▸ hr) hinv1 (by rw [hupd1]; exact hch) s hs

/-- C1: for every sequence of `acquire()` calls on a limiter constructed with
rate `r > 0` (calls made at nondecreasing wall-clock times), the bucket state
satisfies `0 ≤ tokens ≤ rate` initially and after every call, and the refill
performed by any call on such a state is `min rate (tokens + elapsed * rate)`,
which always lies in `[0, rate]` (i.e. it adds `elapsed * rate` tokens capped
at `rate`). -/
theorem rateLimiter_tokens_bounded (r t0 : ℚ) (ts : List ℚ) (hr : 0 < r)
    (hts : List.Chain (fun a b => a ≤ b) t0 ts) :
    (RateLimiter.init r t0).inv ∧
      (∀ s ∈ acquireTrace (RateLimiter.init r t0) ts, s.inv) ∧
      (∀ (rl : RateLimiter) (now : ℚ), rl.rate = r → rl.inv →
        rl.last_update ≤ now →
        refillTokens rl now = min r (rl.tokens + (now - rl.last_update) * r) ∧
        0 ≤ refillTokens rl now ∧ refillTokens rl now ≤ r) := by
  have hinv0 : (RateLimiter.init r t0).inv := ⟨hr.le, le_refl r⟩
  refine ⟨hinv0, acquireTrace_inv ts _ hr hinv0 hts, ?_⟩
  intro rl now hrate hinv hle
  obtain ⟨h1, h2⟩ := refill_bounds rl now (hrate ▸ hr) hinv.1 hle
  exact ⟨by rw [refillTokens, hrate], h1, hrate ▸ h2⟩

/-- Witness for C1 at `r = 3`, `t0 = 0`, call times `[0, 1, 1]`. -/
theorem rateLimiter_tokens_bounded_witness :
    (0 : ℚ) < 3 ∧
      ((RateLimiter.init 3 0).inv ∧
        (∀ s ∈ acquireTrace (RateLimiter.init 3 0) [0, 1, 1], s.inv) ∧
        (∀ (rl : RateLimiter) (now : ℚ), rl.rate = 3 → rl.inv →
          rl.last_update ≤ now →
          refillTokens rl now = min 3 (rl.tokens + (now - rl.last_update) * 3) ∧
          0 ≤ refillTokens rl now ∧ refillTokens rl now ≤ 3)) :=
  ⟨by norm_num,
    rateLimiter_tokens_bounded 3 0 [0, 1, 1] (by norm_num)
      (by constructor <;> norm_num)⟩

/-- C2 (failing-input evaluation): a limiter with `rate = 1` whose bucket
starts empty (`tokens = 0`, so no accumulated burst credit) completes four
back-to-back `acquire()` calls at times `1, 1, 2, 2`, i.e. 4 completions
inside the window of duration `T = 2` starting at time 0, while
`rate * T + 1 = 3`.  The sleep path never advances `last_update`, so the
slept interval is credited a second time by the following call. -/
theorem acquire_sleep_path_recredits_elapsed :
    acquireCompletions ⟨1, 0, 0⟩ 4 0 = [1, 1, 2, 2] ∧
      ((acquireCompletions ⟨1, 0, 0⟩ 4 0).filter fun c => decide (c ≤ 0 + 2)).length = 4 ∧
      ¬ ((4 : ℚ) ≤ 1 * 2 + 1) := by
  have h : acquireCompletions ⟨1, 0, 0⟩ 4 0 = [1, 1, 2, 2] := by
    norm_num [acquireCompletions, RateLimiter.acquire, refillTokens, min_def]
  refine ⟨h, ?_, by norm_num⟩
  rw [h]
  norm_num [List.filter]

theorem acquireCompletions_immediate (r t0 : ℚ) :
    ∀ (n k : ℕ), ((k : ℚ) + n ≤ r) →
      acquireCompletions ⟨r, r - k, t0⟩ n t0 = List.replicate n t0 := by
  intro n
  induction n with
  | zero => intro k _; rfl
  | succ n ih =>
    intro k hk
    have hk0 : (0 : ℚ) ≤ (k : ℚ) := Nat.cast_nonneg k
    have hrefill : refillTokens ⟨r, r - k, t0⟩ t0 = r - k := by
      unfold refillTokens
      show min r (r - (k : ℚ) + (t0 - t0) * r) = r - k
      rw [min_eq_right] <;> [skip; linarith]
      ring
    have hcond : (1 : ℚ) ≤ refillTokens ⟨r, r - k, t0⟩ t0 := by
      rw [hrefill]
      push_cast at hk
      linarith
    have hstep : RateLimiter.acquire ⟨r, r - k, t0⟩ t0 =
        (⟨r, r - ((k : ℚ) + 1), t0⟩, t0) := by
      unfold RateLimiter.acquire
      rw [if_pos hcond, hrefill]
      have he : r - (k : ℚ) - 1 = r - ((k : ℚ) + 1) := by ring
      rw [he]
    show (RateLimiter.acquire ⟨r, r - k, t0⟩ t0).2 ::
        acquireCompletions (RateLimiter.acquire ⟨r, r - k, t0⟩ t0).1 n
          (RateLimiter.acquire ⟨r, r - k, t0⟩ t0).2 = List.replicate (n + 1) t0
    rw [hstep]
    have hih := ih (k + 1) (by push_cast; push_cast at hk; linarith)
    push_cast at hih
    simp [List.replicate_succ, hih]

/-- C10: a freshly constructed `RateLimiter` with rate `r > 0` starts with a
full bucket (`tokens = r`), and its first `⌊r⌋` consecutive back-to-back
`acquire()` calls with no intervening elapsed time all complete immediately
at the start time (no sleep). -/
theorem init_full_bucket_first_floor_immediate (r t0 : ℚ) (hr : 0 < r) :
    (RateLimiter.init r t0).tokens = r ∧
      acquireCompletions (RateLimiter.init r t0) ⌊r⌋₊ t0 =
        List.replicate ⌊r⌋₊ t0 := by
  refine ⟨rfl, ?_⟩
  have h0 : RateLimiter.init r t0 = ⟨r, r - (0 : ℕ), t0⟩ := by
    unfold RateLimiter.init
    norm_num
  rw [h0]
  exact acquireCompletions_immediate r t0 ⌊r⌋₊ 0
    (by push_cast; simpa using Nat.floor_le hr.le)

/-- Witness for C10 at `r = 3`, `t0 = 0`. -/
theorem init_full_bucket_first_floor_immediate_witness :
    (0 : ℚ) < 3 ∧
      ((RateLimiter.init 3 0).tokens = 3 ∧
        acquireCompletions (RateLimiter.init 3 0) ⌊(3 : ℚ)⌋₊ 0 =
          List.replicate ⌊(3 : ℚ)⌋₊ 0) :=
  ⟨by norm_num, init_full_bucket_first_floor_immediate 3 0 (by norm_num)⟩

theorem charsLt_irrefl : ∀ l : List Char, charsLt l l = false
  | [] => rfl
  | a :: as => by
    simp only [charsLt]
    rw [if_neg (lt_irrefl _), if_neg (lt_irrefl _)]
    exact charsLt_irrefl as

theorem charsLt_trans : ∀ l1 l2 l3 : List Char,
    charsLt l1 l2 = true → charsLt l2 l3 = true → charsLt l1 l3 = true := by
  intro l1
  induction l1 with
  | nil =>
    intro l2 l3 h1 h2
    cases l2 with
    | nil => simp [charsLt] at h1
    | cons b bs =>
      cases l3 with
      | nil => simp [charsLt] at h2
      | cons c cs => simp [charsLt]
  | cons a as ih =>
    intro l2 l3 h1 h2
    cases l2 with
    | nil => simp [charsLt] at h1
    | cons b bs =>
      cases l3 with
      | nil => simp [charsLt] at h2
      | cons c cs =>
        simp only [charsLt] at h1 h2 ⊢
        by_cases hab : a.toNat < b.toNat <;> by_cases hbc : b.toNat < c.toNat
        · rw [if_pos (lt_trans hab hbc)]
        · rw [if_neg hbc] at h2
          by_cases hcb : c.toNat < b.toNat
          · rw [if_pos hcb] at h2
            exact absurd h2 (by simp)
          · rw [if_pos (lt_of_lt_of_le hab (le_of_not_lt hcb))]
        · rw [if_neg hab] at h1
          by_cases hba : b.toNat < a.toNat
          · rw [if_pos hba] at h1
            exact absurd h1 (by simp)
          · rw [if_pos (lt_of_le_of_lt (le_of_not_lt hba) hbc)]
        · rw [if_neg hab] at h1
          rw [if_neg hbc] at h2
          by_cases hba : b.toNat < a.toNat
          · rw [if_pos hba] at h1
            exact absurd h1 (by simp)
          by_cases hcb : c.toNat < b.toNat
          · rw [if_pos hcb] at h2
            exact absurd h2 (by simp)
          rw [if_neg hba] at h1
          rw [if_neg hcb] at h2
          have hac1 : ¬ a.toNat < c.toNat := by omega
          have hac2 : ¬ c.toNat < a.toNat := by omega
          rw [if_neg hac1, if_neg hac2]
          exact ih bs cs h1 h2

theorem charsLt_eq_of_not : ∀ l1 l2 : List Char,
    charsLt l1 l2 = false → charsLt l2 l1 = false → l1 = l2 := by
  intro l1
  induction l1 with
  | nil =>
    intro l2 h1 _
    cases l2 with
    | nil => rfl
    | cons b bs => simp [charsLt] at h1
  | cons a as ih =>
    intro l2 h1 h2
    cases l2 with
    | nil => simp [charsLt] at h2
    | cons b bs =>
      simp only [charsLt] at h1 h2
      by_cases hab : a.toNat < b.toNat
      · rw [if_pos hab] at h1
        exact absurd h1 (by simp)
      by_cases hba : b.toNat < a.toNat
      · rw [if_pos hba] at h2
        exact absurd h2 (by simp)
      rw [if_neg hab, if_neg hba] at h1
      rw [if_neg hba, if_neg hab] at h2
      have htn : a.toNat = b.toNat := by omega
      have hchar : a = b := Char.ext (UInt32.ext htn)
      rw [hchar, ih bs h1 h2]

theorem pyStrLe_total (a b : String) : pyStrLe a b ∨ pyStrLe b a := by
  unfold pyStrLe
  cases hx : charsLt b.data a.data with
  | false => exact Or.inl rfl
  | true =>
    cases hy : charsLt a.data b.data with
    | false => exact Or.inr rfl
    | true =>
      exfalso
      have h := charsLt_trans _ _ _ hx hy
      rw [charsLt_irrefl] at h
      exact Bool.false_ne_true h

theorem pyStrLe_trans (a b c : String) (h1 : pyStrLe a b) (h2 : pyStrLe b c) :
    pyStrLe a c := by
  unfold pyStrLe at h1 h2 ⊢
  cases hx : charsLt c.data a.data with
  | false => rfl
  | true =>
    exfalso
    cases hy : charsLt a.data b.data with
    | true =>
      have h := charsLt_trans _ _ _ hx hy
      rw [h2] at h
      exact Bool.false_ne_true h
    | false =>
      have hdata : a.data = b.data := charsLt_eq_of_not _ _ hy h1
      rw [hdata, h2] at hx
      exact Bool.false_ne_true hx

theorem pyStrLe_antisymm (a b : String) (h1 : pyStrLe a b) (h2 : pyStrLe b a) :
    a = b := by
  have hdata : a.data = b.data := charsLt_eq_of_not _ _ h2 h1
  cases a
  cases b
  simp_all

theorem sortedKey_nodup_perm_eq {β : Type} :
    ∀ {l1 l2 : List (String × β)}, l1.Perm l2 →
      l1.Sorted keyLe → l2.Sorted keyLe → (l1.map Prod.fst).Nodup → l1 = l2 := by
  intro l1
  induction l1 with
  | nil =>
    intro l2 hp _ _ _
    exact hp.nil_eq
  | cons a t1 ih =>
    intro l2 hp hs1 hs2 hnd
    cases l2 with
    | nil => exact absurd hp.eq_nil (List.cons_ne_nil a t1)
    | cons b t2 =>
      have hnd2 : (a.1 :: t1.map Prod.fst).Nodup := by
        rw [List.map_cons] at hnd
        exact hnd
      have hnd' := List.nodup_cons.mp hnd2
      have hab : a = b := by
        have hbmem : b ∈ a :: t1 := hp.mem_iff.mpr (List.mem_cons_self b t2)
        rcases List.mem_cons.mp hbmem with hba | hbt1
        · exact hba.symm
        · have hamem : a ∈ b :: t2 := hp.subset (List.mem_cons_self a t1)
          rcases List.mem_cons.mp hamem with heq | hat2
          · exact heq
          · have h1 : keyLe a b := List.rel_of_sorted_cons hs1 b hbt1
            have h2 : keyLe b a := List.rel_of_sorted_cons hs2 a hat2
            have hkey : a.1 = b.1 := pyStrLe_antisymm _ _ h1 h2
            exfalso
            apply hnd'.1
            rw [hkey]
            exact List.mem_map_of_mem Prod.fst hbt1
      subst hab
      have ht := ih hp.cons_inv (List.sorted_cons.mp hs1).2
        (List.sorted_cons.mp hs2).2 hnd'.2
      rw [ht]

theorem sortByKey_perm {β : Type} (l : List (String × β)) : (sortByKey l).Perm l :=
  List.perm_insertionSort keyLe l

theorem sortByKey_sorted {β : Type} (l : List (String × β)) :
    (sortByKey l).Sorted keyLe := by
  haveI : IsTotal (String × β) keyLe := ⟨fun a b => pyStrLe_total a.1 b.1⟩
  haveI : IsTrans (String × β) keyLe := ⟨fun a b c h1 h2 => pyStrLe_trans _ _ _ h1 h2⟩
  exact List.sorted_insertionSort keyLe l

theorem sortByKey_eq_of_perm {β : Type} {l1 l2 : List (String × β)} (hp : l1.Perm l2)
    (hnd : (l1.map Prod.fst).Nodup) : sortByKey l1 = sortByKey l2 := by
  apply sortedKey_nodup_perm_eq
    ((sortByKey_perm l1).trans (hp.trans (sortByKey_perm l2).symm))
    (sortByKey_sorted l1) (sortByKey_sorted l2)
  exact (((sortByKey_perm l1).map Prod.fst).nodup_iff).mpr hnd

theorem filterMap_kwargPart_filter (l : List (String × PyVal)) :
    l.filterMap kwargPart =
      (l.filter fun p => decide (p.2 ≠ PyVal.pnone)).filterMap kwargPart := by
  induction l with
  | nil => rfl
  | cons p l ih =>
    by_cases hp : p.2 = PyVal.pnone
    · simp [List.filter_cons, List.filterMap_cons, kwargPart, hp, ih]
    · simp [List.filter_cons, List.filterMap_cons, kwargPart, hp, ih]

theorem sortByKey_filter_comm (l : List (String × PyVal)) (q : String × PyVal → Bool)
    (hnd : (l.map Prod.fst).Nodup) :
    (sortByKey l).filter q = sortByKey (l.filter q) := by
  have h1 : ((sortByKey l).map Prod.fst).Nodup :=
    (((sortByKey_perm l).map Prod.fst).nodup_iff).mpr hnd
  apply sortedKey_nodup_perm_eq
  · exact ((sortByKey_perm l).filter q).trans (sortByKey_perm (l.filter q)).symm
  · exact (sortByKey_sorted l).filter q
  · exact sortByKey_sorted _
  · exact h1.sublist ((List.filter_sublist _).map Prod.fst)

theorem orderedInsert_congr : ∀ {s1 s2 : List (String × PyVal)}
    {a b : String × PyVal}, List.Forall₂ KwargEq s1 s2 → KwargEq a b →
    List.Forall₂ KwargEq (List.orderedInsert keyLe a s1)
      (List.orderedInsert keyLe b s2) := by
  intro s1 s2 a b h hab
  induction h with
  | nil => exact List.Forall₂.cons hab List.Forall₂.nil
  | @cons x y s1' s2' hxy hrest ih =>
    by_cases hx : keyLe a x
    · have hy : keyLe b y := by
        unfold keyLe at hx ⊢
        rw [← hab.1, ← hxy.1]
        exact hx
      simp only [List.orderedInsert]
      rw [if_pos hx, if_pos hy]
      exact List.Forall₂.cons hab (List.Forall₂.cons hxy hrest)
    · have hy : ¬ keyLe b y := by
        unfold keyLe at hx ⊢
        rw [← hab.1, ← hxy.1]
        exact hx
      simp only [List.orderedInsert]
      rw [if_neg hx, if_neg hy]
      exact List.Forall₂.cons hxy ih

theorem sortByKey_congr : ∀ {l1 l2 : List (String × PyVal)},
    List.Forall₂ KwargEq l1 l2 →
    List.Forall₂ KwargEq (sortByKey l1) (sortByKey l2) := by
  intro l1 l2 h
  induction h with
  | nil => exact List.Forall₂.nil
  | @cons x y l1' l2' hxy hrest ih =>
    simp only [sortByKey, List.insertionSort] at ih ⊢
    exact orderedInsert_congr ih hxy

theorem filterMap_kwargPart_congr : ∀ {l1 l2 : List (String × PyVal)},
    List.Forall₂ KwargEq l1 l2 →
    l1.filterMap kwargPart = l2.filterMap kwargPart := by
  intro l1 l2 h
  induction h with
  | nil => rfl
  | @cons x y l1' l2' hxy hrest ih =>
    by_cases hx : x.2 = PyVal.pnone
    · have hy : y.2 = PyVal.pnone := hxy.2.1.mp hx
      simp only [List.filterMap_cons, kwargPart, hx, hy, if_pos, ih]
    · have hy : ¬ y.2 = PyVal.pnone := fun hh => hx (hxy.2.1.mpr hh)
      simp only [List.filterMap_cons, kwargPart, hx, hy, if_neg, not_false_iff,
        ih, hxy.1, hxy.2.2]

/-- C3: `CacheManager.generate_key` is deterministic and canonicalizing:
(1) it is independent of keyword-argument order (any permutation of the
kwargs with distinct keys yields the same key); (2) `None`-valued
parameters are omitted, so dropping them does not change the key;
(3) element order inside a list-valued parameter never affects the key;
(4) entry order inside a dict-valued parameter never affects the key. -/
theorem generate_key_canonical :
    (∀ (args : List String) (k1 k2 : List (String × PyVal)),
        k1.Perm k2 → (k1.map Prod.fst).Nodup →
        generate_key args k1 = generate_key args k2) ∧
      (∀ (args : List String) (ks : List (String × PyVal)),
        (ks.map Prod.fst).Nodup →
        generate_key args ks =
          generate_key args (ks.filter fun p => decide (p.2 ≠ PyVal.pnone))) ∧
      (∀ (args : List String) (pre post : List (String × PyVal)) (k : String)
        (xs ys : List String), xs.Perm ys →
        generate_key args (pre ++ (k, PyVal.plist xs) :: post) =
          generate_key args (pre ++ (k, PyVal.plist ys) :: post)) ∧
      (∀ (args : List String) (pre post : List (String × PyVal)) (k : String)
        (xs ys : List (String × Int)), xs.Perm ys → (xs.map Prod.fst).Nodup →
        generate_key args (pre ++ (k, PyVal.pdict xs) :: post) =
          generate_key args (pre ++ (k, PyVal.pdict ys) :: post)) := by
  refine ⟨?_, ?_, ?_, ?_⟩
  · intro args k1 k2 hp hnd
    unfold generate_key
    rw [sortByKey_eq_of_perm hp hnd]
  · intro args ks hnd
    unfold generate_key
    rw [filterMap_kwargPart_filter (sortByKey ks), sortByKey_filter_comm ks _ hnd]
  · intro args pre post k xs ys hperm
    have hren : renderValue (PyVal.plist xs) = renderValue (PyVal.plist ys) := by
      haveI : IsTotal String pyStrLe := ⟨pyStrLe_total⟩
      haveI : IsTrans String pyStrLe := ⟨fun a b c => pyStrLe_trans a b c⟩
      haveI : IsAntisymm String pyStrLe := ⟨pyStrLe_antisymm⟩
      have hsort : List.insertionSort pyStrLe xs = List.insertionSort pyStrLe ys :=
        List.eq_of_perm_of_sorted
          ((List.perm_insertionSort _ xs).trans
            (hperm.trans (List.perm_insertionSort _ ys).symm))
          (List.sorted_insertionSort _ xs) (List.sorted_insertionSort _ ys)
      simp only [renderValue, hsort]
    have hF : List.Forall₂ KwargEq (pre ++ (k, PyVal.plist xs) :: post)
        (pre ++ (k, PyVal.plist ys) :: post) :=
      List.rel_append (List.forall₂_same.mpr fun x _ => ⟨rfl, Iff.rfl, rfl⟩)
        (List.Forall₂.cons ⟨rfl, by simp, hren⟩
          (List.forall₂_same.mpr fun x _ => ⟨rfl, Iff.rfl, rfl⟩))
    unfold generate_key
    rw [filterMap_kwargPart_congr (sortByKey_congr hF)]
  · intro args pre post k xs ys hperm hnd
    have hren : renderValue (PyVal.pdict xs) = renderValue (PyVal.pdict ys) := by
      have hsort := sortByKey_eq_of_perm hperm hnd
      simp only [renderValue, hsort]
    have hF : List.Forall₂ KwargEq (pre ++ (k, PyVal.pdict xs) :: post)
        (pre ++ (k, PyVal.pdict ys) :: post) :=
      List.rel_append (List.forall₂_same.mpr fun x _ => ⟨rfl, Iff.rfl, rfl⟩)
        (List.Forall₂.cons ⟨rfl, by simp, hren⟩
          (List.forall₂_same.mpr fun x _ => ⟨rfl, Iff.rfl, rfl⟩))
    unfold generate_key
    rw [filterMap_kwargPart_congr (sortByKey_congr hF)]

/-- Witness for C3: concrete instances of all four parts. -/
theorem generate_key_canonical_witness :
    generate_key ["op"] [("a", PyVal.pint 1), ("b", PyVal.pint 2)] =
        generate_key ["op"] [("b", PyVal.pint 2), ("a", PyVal.pint 1)] ∧
      generate_key ["op"] [("a", PyVal.pint 1), ("b", PyVal.pnone)] =
        generate_key ["op"]
          ([("a", PyVal.pint 1), ("b", PyVal.pnone)].filter
            fun p => decide (p.2 ≠ PyVal.pnone)) ∧
      generate_key ["op"] [("xs", PyVal.plist ["b", "a"])] =
        generate_key ["op"] [("xs", PyVal.plist ["a", "b"])] ∧
      generate_key ["op"] [("d", PyVal.pdict [("x", 1), ("y", 2)])] =
        generate_key ["op"] [("d", PyVal.pdict [("y", 2), ("x", 1)])] :=
  ⟨generate_key_canonical.1 ["op"] _ _ (by decide) (by decide),
    generate_key_canonical.2.1 ["op"] _ (by decide),
    generate_key_canonical.2.2.1 ["op"] [] [] "xs" ["b", "a"] ["a", "b"]
      (by decide),
    generate_key_canonical.2.2.2 ["op"] [] [] "d" [("x", 1), ("y", 2)]
      [("y", 2), ("x", 1)] (by decide) (by decide)⟩

set_option maxRecDepth 100000 in
/-- C4 (failing-input evaluation): on a 201-character key string the source
returns `f"{key_string}:{md5hex}"`, i.e. it appends the digest to the full
key string instead of collapsing to `prefix:<hash>`: the result is 234
characters, strictly longer than the 201-character uncollapsed key string,
not shorter. -/
theorem generate_key_long_key_appends_hash :
    generate_key [String.mk (List.replicate 201 'a')] [] =
        String.mk (List.replicate 201 'a') ++ ":" ++
          md5hex (String.mk (List.replicate 201 'a')) ∧
      (generate_key [String.mk (List.replicate 201 'a')] []).length = 234 ∧
      (String.mk (List.replicate 201 'a')).length <
        (generate_key [String.mk (List.replicate 201 'a')] []).length := by
  refine ⟨by decide, by decide, by decide⟩

theorem applyCacheOp_counters {α : Type} (c : CacheState α) (op : CacheOp α) :
    (applyCacheOp c op).hits + (applyCacheOp c op).misses =
        c.hits + c.misses + countOkGets [op] ∧
      (applyCacheOp c op).sets = c.sets + countOkSets [op] := by
  cases op with
  | get key now fault =>
    cases fault with
    | true => simp [applyCacheOp, cacheGet, countOkGets, countOkSets]
    | false =>
      simp only [applyCacheOp, cacheGet, Bool.false_eq_true, if_false,
        countOkGets, countOkSets]
      cases lookupTTL c.entries key now c.ttl <;> simp <;> omega
  | set key v now fault =>
    cases fault with
    | true => simp [applyCacheOp, cacheSet, countOkGets, countOkSets]
    | false => simp [applyCacheOp, cacheSet, countOkGets, countOkSets]
  | clear => simp [applyCacheOp, cacheClear, countOkGets, countOkSets]
  | stats => simp [applyCacheOp, countOkGets, countOkSets]

theorem runCacheOps_counters {α : Type} :
    ∀ (ops : List (CacheOp α)) (c : CacheState α),
      (runCacheOps c ops).hits + (runCacheOps c ops).misses =
          c.hits + c.misses + countOkGets ops ∧
        (runCacheOps c ops).sets = c.sets + countOkSets ops := by
  intro ops
  induction ops with
  | nil => intro c; simp [runCacheOps, countOkGets, countOkSets]
  | cons op ops ih =>
    intro c
    obtain ⟨ih1, ih2⟩ := ih (applyCacheOp c op)
    obtain ⟨hs1, hs2⟩ := applyCacheOp_counters c op
    have hgets : countOkGets (op :: ops) = countOkGets [op] + countOkGets ops := by
      cases op with
      | get key now fault => cases fault <;> simp [countOkGets] <;> omega
      | set key v now fault => cases fault <;> simp [countOkGets]
      | clear => simp [countOkGets]
      | stats => simp [countOkGets]
    have hsets : countOkSets (op :: ops) = countOkSets [op] + countOkSets ops := by
      cases op with
      | get key now fault => cases fault <;> simp [countOkSets]
      | set key v now fault => cases fault <;> simp [countOkSets] <;> omega
      | clear => simp [countOkSets]
      | stats => simp [countOkSets]
    have hrun : runCacheOps c (op :: ops) = runCacheOps (applyCacheOp c op) ops := rfl
    rw [hrun, hgets, hsets]
    constructor
    · rw [ih1]
      omega
    · rw [ih2]
      omega

/-- C5 counterexample: on a fresh manager, a single `get` call on which the
backing store faults leaves `hits + misses` at `0`, while the total number of
`get` calls made is `1` — so `hits + misses` does not equal the total number
of `get` calls when faulting calls are included. -/
theorem cache_stats_fault_counterexample :
    ¬ ((runCacheOps (CacheState.fresh ℕ 1000 300) [CacheOp.get "k" 0 true]).hits +
          (runCacheOps (CacheState.fresh ℕ 1000 300)
            [CacheOp.get "k" 0 true]).misses =
        countGets [CacheOp.get (α := ℕ) "k" 0 true]) := by
  decide

/-- C5 (amended): after any sequence of operations on a fresh manager,
`hits + misses` equals the number of `get` calls whose backend access did not
fault, and `sets` equals the number of `set` calls whose backend access did
not fault; a faulting `get` or `set` leaves every counter unchanged. -/
theorem cache_stats_invariant {α : Type} (maxsize : ℕ) (ttl : ℚ)
    (ops : List (CacheOp α)) :
    (runCacheOps (CacheState.fresh α maxsize ttl) ops).hits +
        (runCacheOps (CacheState.fresh α maxsize ttl) ops).misses =
          countOkGets ops ∧
      (runCacheOps (CacheState.fresh α maxsize ttl) ops).sets =
        countOkSets ops := by
  obtain ⟨h1, h2⟩ := runCacheOps_counters ops (CacheState.fresh α maxsize ttl)
  refine ⟨?_, ?_⟩
  · rw [h1]
    simp [CacheState.fresh]
  · rw [h2]
    simp [CacheState.fresh]

theorem filterMap_length_of_isSome {α β : Type} (f : α → Option β) :
    ∀ l : List α, (∀ x ∈ l, (f x).isSome = true) →
      (l.filterMap f).length = l.length := by
  intro l
  induction l with
  | nil => simp
  | cons a l ih =>
    intro h
    obtain ⟨b, hb⟩ :=
      Option.isSome_iff_exists.mp (h a (List.mem_cons_self a l))
    simp [List.filterMap_cons, hb,
      ih fun x hx => h x (List.mem_cons_of_mem a hx)]

/-- C7: if the `PubmedArticle` nodes of a payload are `l1 ++ [bad] ++ l2`
where exactly the node `bad` is malformed (its single-article parse yields
`None`, e.g. for a missing `PMID`) and every other node parses, then the
parser returns exactly `N - 1` records, and every well-formed sibling's
record is kept; a top-level payload that cannot be parsed as XML at all
yields `[]` rather than an exception. -/
theorem parser_resilience :
    (∀ (root : XElem) (l1 l2 : List XElem) (bad : XElem),
        pubmedArticleNodes root = l1 ++ bad :: l2 →
        parse_single_article bad = none →
        (∀ x ∈ l1 ++ l2, (parse_single_article x).isSome = true) →
        (parse_pubmed_xml (some root)).length =
            (pubmedArticleNodes root).length - 1 ∧
          (∀ x ∈ l1 ++ l2, ∃ a, parse_single_article x = some a ∧
            a ∈ parse_pubmed_xml (some root))) ∧
      parse_pubmed_xml none = [] := by
  refine ⟨?_, rfl⟩
  intro root l1 l2 bad hnodes hbad hok
  have hxml : parse_pubmed_xml (some root) =
      (l1 ++ bad :: l2).filterMap parse_single_article := by
    simp [parse_pubmed_xml, hnodes]
  constructor
  · rw [hxml, hnodes]
    rw [List.filterMap_append, List.filterMap_cons_none hbad]
    rw [List.length_append, List.length_append, List.length_cons]
    rw [filterMap_length_of_isSome parse_single_article l1
        fun x hx => hok x (List.mem_append_left l2 hx),
      filterMap_length_of_isSome parse_single_article l2
        fun x hx => hok x (List.mem_append_right l1 hx)]
    omega
  · intro x hx
    obtain ⟨a, ha⟩ := Option.isSome_iff_exists.mp (hok x hx)
    refine ⟨a, ha, ?_⟩
    rw [hxml]
    apply List.mem_filterMap.mpr
    refine ⟨x, ?_, ha⟩
    rcases List.mem_append.mp hx with h1 | h2
    · exact List.mem_append_left _ h1
    · exact List.mem_append_right _ (List.mem_cons_of_mem bad h2)

/-- Witness for C7 on a payload of 3 article nodes with the middle one
malformed (missing `PMID`): 2 records come back and both well-formed
siblings are kept. -/
theorem parser_resilience_witness :
    pubmedArticleNodes wRoot =
        [wOkArticle "12345678"] ++ wBadArticle :: [wOkArticle "23456789"] ∧
      parse_single_article wBadArticle = none ∧
      (∀ x ∈ [wOkArticle "12345678"] ++ [wOkArticle "23456789"],
        (parse_single_article x).isSome = true) ∧
      ((parse_pubmed_xml (some wRoot)).length =
          (pubmedArticleNodes wRoot).length - 1 ∧
        (∀ x ∈ [wOkArticle "12345678"] ++ [wOkArticle "23456789"],
          ∃ a, parse_single_article x = some a ∧
            a ∈ parse_pubmed_xml (some wRoot))) := by
  refine ⟨rfl, rfl, ?_, ?_⟩
  · decide
  · exact parser_resilience.1 wRoot [wOkArticle "12345678"]
      [wOkArticle "23456789"] wBadArticle rfl rfl (by decide)

theorem fetch_requests_ids (limiter : RateLimiter) (up : Upstream) (now : ℚ)
    (pmids : List String) :
    ∀ req ∈ (fetch_article_details limiter up now pmids).2.2,
      req.ids = pmids := by
  unfold fetch_article_details
  by_cases h : pmids.isEmpty = true
  · rw [if_pos h]
    intro req hreq
    simp at hreq
  · rw [if_neg h]
    intro req hreq
    simp at hreq
    rw [hreq]

/-- C8: `get_article_details` silently drops identifiers failing the
7–9-digit validation from the outbound request — every request it issues
carries exactly `pmids.filter validate_pmid` — and when every supplied
identifier is invalid it returns an empty list immediately, contacting no
upstream, consuming no rate-limit token, and touching no cache. -/
theorem invalid_pmids_dropped (limiter : RateLimiter)
    (cache : Option (CacheState (List Article))) (up : Upstream) (now : ℚ)
    (pmids : List String) (ia ic : Bool) :
    (∀ req ∈ (get_article_details limiter cache up now pmids ia ic).requests,
        req.ids = pmids.filter validate_pmid) ∧
      (pmids.filter validate_pmid = [] →
        get_article_details limiter cache up now pmids ia ic =
          { articles := [], limiter := limiter, requests := [],
            cache := cache }) := by
  constructor
  · intro req hreq
    by_cases hv : (pmids.filter validate_pmid).isEmpty = true
    · simp only [get_article_details, if_pos hv] at hreq
      simp at hreq
    · simp only [get_article_details, if_neg hv] at hreq
      cases cache with
      | none =>
        exact fetch_requests_ids limiter up now (pmids.filter validate_pmid)
          req hreq
      | some c =>
        rcases hcg : (cacheGet c
            (detailsKey (pmids.filter validate_pmid) ia ic) now false).1 with
            _ | v
        · simp only [hcg] at hreq
          exact fetch_requests_ids limiter up now (pmids.filter validate_pmid)
            req hreq
        · simp only [hcg] at hreq
          simp at hreq
  · intro hempty
    simp only [get_article_details, hempty]
    rfl

/-- Witness for C8: a mixed valid/invalid identifier list yields requests
carrying only the valid subset, and an all-invalid list returns empty with
no request. -/
theorem invalid_pmids_dropped_witness :
    (∀ req ∈ (get_article_details (RateLimiter.init 3 0) none wUpstream 0
          ["12345678", "12x"] true false).requests,
        req.ids = ["12345678", "12x"].filter validate_pmid) ∧
      (["123", "abcdefg"].filter validate_pmid = [] ∧
        get_article_details (RateLimiter.init 3 0) none wUpstream 0
            ["123", "abcdefg"] true false =
          { articles := [], limiter := RateLimiter.init 3 0, requests := [],
            cache := none }) :=
  ⟨(invalid_pmids_dropped (RateLimiter.init 3 0) none wUpstream 0
      ["12345678", "12x"] true false).1,
    by decide,
    (invalid_pmids_dropped (RateLimiter.init 3 0) none wUpstream 0
      ["123", "abcdefg"] true false).2 (by decide)⟩

/-- C6 (failing-input evaluation): on a cache entry as written by
`cache.set` (serialized dict form, one article), the first hit at time 10
returns the cached structured result with no request, an untouched rate
limiter and `hits` incremented — but it rewrites the stored dict in place,
leaving `Article` objects in the entry (`wPoisonedCache`).  The next call
at time 11 again finds the unexpired entry for the generated key, yet
`Article(**article_data)` now receives an `Article` object and raises
`TypeError` (`result = none`) instead of returning the cached result, with
`hits` still incremented by `cache.get` before the raise. -/
theorem search_repeat_hit_raises :
    (search_articles (RateLimiter.init 3 0) (some wPoisonableCache) wUpstream
        wClock 10 wSearchParams).result = some wSearchResultNE ∧
      (search_articles (RateLimiter.init 3 0) (some wPoisonableCache) wUpstream
        wClock 10 wSearchParams).requests = [] ∧
      (search_articles (RateLimiter.init 3 0) (some wPoisonableCache) wUpstream
        wClock 10 wSearchParams).limiter = RateLimiter.init 3 0 ∧
      (search_articles (RateLimiter.init 3 0) (some wPoisonableCache) wUpstream
        wClock 10 wSearchParams).cache = some wPoisonedCache ∧
      (search_articles (RateLimiter.init 3 0) (some wPoisonedCache) wUpstream
        wClock 11 wSearchParams).result = none ∧
      (search_articles (RateLimiter.init 3 0) (some wPoisonedCache) wUpstream
        wClock 11 wSearchParams).requests = [] ∧
      (search_articles (RateLimiter.init 3 0) (some wPoisonedCache) wUpstream
        wClock 11 wSearchParams).limiter = RateLimiter.init 3 0 ∧
      (search_articles (RateLimiter.init 3 0) (some wPoisonedCache) wUpstream
        wClock 11 wSearchParams).cache =
        some { wPoisonedCache with hits := wPoisonedCache.hits + 1 } := by
  have hl1 : lookupTTL wPoisonableCache.entries (searchKey wSearchParams) 10
      wPoisonableCache.ttl =
      some { base := wSearchResultNE, serialized := true } := by
    unfold wPoisonableCache lookupTTL
    simp only [List.find?]
    rw [show ((searchKey wSearchParams,
        ({ base := wSearchResultNE, serialized := true } : CachedSearch),
        (0 : ℚ)).1 == searchKey wSearchParams) = true by simp]
    norm_num
  have hg1 : cacheGet wPoisonableCache (searchKey wSearchParams) 10 false =
      (some { base := wSearchResultNE, serialized := true },
        { wPoisonableCache with hits := wPoisonableCache.hits + 1 }) := by
    unfold cacheGet
    rw [if_neg (by simp), hl1]
  have hl2 : lookupTTL wPoisonedCache.entries (searchKey wSearchParams) 11
      wPoisonedCache.ttl =
      some { base := wSearchResultNE, serialized := false } := by
    unfold wPoisonedCache lookupTTL
    simp only [List.find?]
    rw [show ((searchKey wSearchParams,
        ({ base := wSearchResultNE, serialized := false } : CachedSearch),
        (0 : ℚ)).1 == searchKey wSearchParams) = true by simp]
    norm_num
  have hg2 : cacheGet wPoisonedCache (searchKey wSearchParams) 11 false =
      (some { base := wSearchResultNE, serialized := false },
        { wPoisonedCache with hits := wPoisonedCache.hits + 1 }) := by
    unfold cacheGet
    rw [if_neg (by simp), hl2]
  have hne : wSearchResultNE.articles.isEmpty = false := by
    unfold wSearchResultNE
    simp
  refine ⟨?_, ?_, ?_, ?_, ?_, ?_, ?_, ?_⟩
  · simp [search_articles, hg1, hne]
  · simp [search_articles, hg1, hne]
  · simp [search_articles, hg1, hne]
  · simp only [search_articles, hg1]
    simp [searchEntryMutate, wPoisonableCache, wPoisonedCache]
  · simp [search_articles, hg2, hne]
  · simp [search_articles, hg2, hne]
  · simp [search_articles, hg2, hne]
  · simp [search_articles, hg2, hne]
